import Mathlib

/-!
Verification development for the llxprt provider-dispatch runtime.

The definitions below are shallow embeddings of the TypeScript sources:
  packages/core/src/utils/retry.ts
  packages/core/src/config/profileManager.ts
  packages/core/src/prompt-config/TemplateEngine.ts
  packages/core/src/providers/ProviderManager.ts
JavaScript numbers are modelled as rationals, dynamically typed
JavaScript values as the inductive type JsValue, and the file system of
the profile manager as a map from names to file contents.
-/

namespace Llxprt

/-- Dynamic JavaScript value, as far as the embedded code inspects it.
Objects are association lists of fields in insertion order. -/
inductive JsValue where
  | null : JsValue
  | bool : Bool → JsValue
  | num : ℚ → JsValue
  | str : String → JsValue
  | arr : List JsValue → JsValue
  | obj : List (String × JsValue) → JsValue

/-- JavaScript truthiness of a value. -/
def truthy : JsValue → Bool
  | .null => false
  | .bool b => b
  | .num q => !(q == 0)
  | .str s => !(s == "")
  | .arr _ => true
  | .obj _ => true

/-- First field of the given name in an object field list, as in
JavaScript property lookup on object literals with unique keys. -/
def lookupField (fs : List (String × JsValue)) (k : String) : Option JsValue :=
  (fs.find? (fun p => p.1 == k)).map (fun p => p.2)

/-- Property access that yields none on non-objects, mirroring the
guarded accesses in the source. -/
def getProp (v : JsValue) (k : String) : Option JsValue :=
  match v with
  | .obj fs => lookupField fs k
  | _ => none

/-! ## String helpers mirroring JavaScript string methods (ASCII range) -/

/-- Model of toLowerCase for the ASCII strings the code compares. -/
def jsToLower (s : String) : String := String.mk (s.data.map Char.toLower)

/-- Model of toUpperCase for the ASCII strings the code compares. -/
def jsToUpper (s : String) : String := String.mk (s.data.map Char.toUpper)

/-- Does the list start with the given pattern. -/
def startsWithSeq (pat s : List Char) : Bool :=
  s.take pat.length == pat

/-- Does the pattern occur somewhere in the list; model of
String.prototype.includes. -/
def containsSeq (pat : List Char) : List Char → Bool
  | [] => startsWithSeq pat []
  | c :: rest => startsWithSeq pat (c :: rest) || containsSeq pat rest

/-- Substring test on strings, via the character lists. -/
def strContains (hay needle : String) : Bool :=
  containsSeq needle.data hay.data

/-! ## retry.ts: transient error classification -/

def STREAM_INTERRUPTED_ERROR_CODE : String := "LLXPRT_STREAM_INTERRUPTED"

def TRANSIENT_ERROR_PHRASES : List String :=
  ["connection error", "connection terminated", "connection reset",
   "socket hang up", "socket hung up", "socket closed", "socket timeout",
   "network timeout", "network error", "fetch failed", "request aborted",
   "request timeout", "stream closed", "stream prematurely closed",
   "read econnreset", "write econnreset"]

def TRANSIENT_ERROR_CODES : List String :=
  ["ECONNRESET", "ECONNREFUSED", "ECONNABORTED", "ENETUNREACH",
   "EHOSTUNREACH", "ETIMEDOUT", "EPIPE", "EAI_AGAIN", "UND_ERR_SOCKET",
   "UND_ERR_CONNECT_TIMEOUT", "UND_ERR_HEADERS_TIMEOUT",
   "UND_ERR_BODY_TIMEOUT", STREAM_INTERRUPTED_ERROR_CODE]

/-- Characters the dot of a JavaScript regex does not match. -/
def isJsRegexNewline (c : Char) : Bool :=
  c == '\n' || c == '\r' || c == Char.ofNat 0x2028 || c == Char.ofNat 0x2029

/-- After an occurrence of the literal part, can the tail be split as
dot-star followed by reset or closed, dots not crossing newlines.
Works on an already lowercased character list. -/
def tcpTailMatch : List Char → Bool
  | [] => false
  | c :: rest =>
    startsWithSeq (['r', 'e', 's', 'e', 't']) (c :: rest) ||
    startsWithSeq (['c', 'l', 'o', 's', 'e', 'd']) (c :: rest) ||
    (!isJsRegexNewline c && tcpTailMatch rest)

/-- Model of the test of the regex tcp connection dot-star reset-or-closed
with the ignore-case flag, on the lowercased character list. -/
def tcpRegexMatch : List Char → Bool
  | [] => false
  | c :: rest =>
    (startsWithSeq ("tcp connection".data) (c :: rest) &&
      tcpTailMatch ((c :: rest).drop ("tcp connection".data).length)) ||
    tcpRegexMatch rest

/-- Model of TRANSIENT_ERROR_REGEXES applied to one message: each regex
has the ignore-case flag, so matching is done on the lowercased text. -/
def transientRegexMatch (msg : String) : Bool :=
  let low := jsToLower msg
  strContains low ("econnreset") || strContains low ("econnrefused") ||
  strContains low ("econnaborted") ||
  strContains low ("etimedout") ||
  strContains low ("und_err_socket") || strContains low ("und_err_connect") ||
  strContains low ("und_err_headers_timeout") ||
  strContains low ("und_err_body_timeout") ||
  tcpRegexMatch (jsToLower msg).data

/-- A field looked up in an object field list is structurally smaller
than the list, giving termination of the error-chain traversal. -/
theorem sizeOf_lookupField {fs : List (String × JsValue)} {k : String}
    {v : JsValue} (h : lookupField fs k = some v) : sizeOf v < sizeOf fs := by
  induction fs with
  | nil => simp [lookupField] at h
  | cons hd tl ih =>
    unfold lookupField at h
    by_cases hk : hd.1 == k
    · simp only [List.find?, hk, Option.map_some'] at h
      obtain ⟨a, b⟩ := hd
      cases h
      simp only [List.cons.sizeOf_spec, Prod.mk.sizeOf_spec]
      omega
    · simp only [List.find?, hk] at h
      have := ih h
      simp only [List.cons.sizeOf_spec]
      omega

/-- Field values whose object fields v traverses transitively; the source
walks a work stack over cause, originalError and error fields, guarded by
truthiness and a visited set.  On the inductive value model the traversal
is the structural recursion below. -/
def collectErrorDetails : JsValue → List String × List String
  | .str s => ([s], [])
  | .obj fs =>
    let msgs : List String :=
      match lookupField fs ("message") with
      | some (.str m) => [m]
      | _ => []
    let cds : List String :=
      match lookupField fs ("code") with
      | some (.str c) => [c]
      | _ => []
    let c1 : List String × List String :=
      match h1 : lookupField fs ("cause") with
      | some n => if truthy n then collectErrorDetails n else ([], [])
      | none => ([], [])
    let c2 : List String × List String :=
      match h2 : lookupField fs ("originalError") with
      | some n => if truthy n then collectErrorDetails n else ([], [])
      | none => ([], [])
    let c3 : List String × List String :=
      match h3 : lookupField fs ("error") with
      | some n => if truthy n then collectErrorDetails n else ([], [])
      | none => ([], [])
    (msgs ++ c1.1 ++ c2.1 ++ c3.1, cds ++ c1.2 ++ c2.2 ++ c3.2)
  | _ => ([], [])
termination_by v => sizeOf v
decreasing_by
  all_goals
    simp only [JsValue.obj.sizeOf_spec]
    have := sizeOf_lookupField (by assumption)
    omega

/-- createStreamInterruptionError from retry.ts: an Error value carrying
the dedicated stream-interruption code, optional details and cause. -/
def createStreamInterruptionError (message : String)
    (details : Option JsValue) (cause : Option JsValue) : JsValue :=
  let base : List (String × JsValue) :=
    [("message", .str message), ("name", .str "StreamInterruptionError"),
     ("code", .str STREAM_INTERRUPTED_ERROR_CODE)]
  let withDetails :=
    match details with
    | some d => if truthy d then base ++ [("details", d)] else base
    | none => base
  let withCause :=
    match cause with
    | some c => if truthy c then withDetails ++ [("cause", c)] else withDetails
    | none => withDetails
  .obj withCause

/-- isNetworkTransientError from retry.ts. -/
def isNetworkTransientError (error : JsValue) : Bool :=
  let details := collectErrorDetails error
  let messages := details.1
  let codes := details.2
  (messages.any fun msg =>
    TRANSIENT_ERROR_PHRASES.any fun phrase => strContains (jsToLower msg) phrase) ||
  (messages.any fun msg => transientRegexMatch msg) ||
  (codes.any fun code => TRANSIENT_ERROR_CODES.contains (jsToUpper code))

/-! ## retry.ts: status extraction, Retry-After parsing, backoff loop -/

/-- getErrorStatus from retry.ts: a numeric status property, else a
numeric status on a non-null object response property. -/
def getErrorStatus (error : JsValue) : Option ℚ :=
  match error with
  | .obj fs =>
    match lookupField fs ("status") with
    | some (.num n) => some n
    | _ =>
      match lookupField fs ("response") with
      | some (.obj rs) =>
        match lookupField rs ("status") with
        | some (.num n) => some n
        | _ => none
      | _ => none
  | _ => none

/-- The digits prefix of a character list as a natural number, none when
there is no leading digit. -/
def digitsPrefixVal (cs : List Char) : Option Nat :=
  let ds := cs.takeWhile (fun c => c.isDigit)
  if ds.isEmpty then none
  else some (ds.foldl (fun acc c => acc * 10 + (c.toNat - '0'.toNat)) 0)

/-- Model of parseInt with radix 10: skip leading whitespace, optional
sign, then the maximal digit prefix; none models NaN. -/
def jsParseInt (s : String) : Option ℤ :=
  let cs := s.data.dropWhile (fun c => c.isWhitespace)
  match cs with
  | '-' :: rest => (digitsPrefixVal rest).map (fun n => -(n : ℤ))
  | '+' :: rest => (digitsPrefixVal rest).map (fun n => (n : ℤ))
  | rest => (digitsPrefixVal rest).map (fun n => (n : ℤ))

/-- getRetryAfterDelayMs from retry.ts.  The header is read from
error.response.headers, parsed as integer seconds first and as an HTTP
date otherwise.  Date parsing is the JavaScript Date constructor, an
external facility modelled by the parseDate argument returning epoch
milliseconds; now models Date.now(). -/
def getRetryAfterDelayMs (parseDate : String → Option ℤ) (now : ℤ)
    (error : JsValue) : ℚ :=
  match error with
  | .obj fs =>
    match lookupField fs ("response") with
    | some (.obj rs) =>
      match lookupField rs ("headers") with
      | some (.obj hs) =>
        match lookupField hs ("retry-after") with
        | some (.str header) =>
          match jsParseInt header with
          | some seconds => (seconds : ℚ) * 1000
          | none =>
            match parseDate header with
            | some t => max 0 ((t : ℚ) - (now : ℚ))
            | none => 0
        | _ => 0
      | _ => 0
    | _ => 0
  | _ => 0

/-- getDelayDurationAndStatus from retry.ts: only a 429 status consults
the Retry-After header. -/
def getDelayDurationAndStatus (parseDate : String → Option ℤ) (now : ℤ)
    (error : JsValue) : ℚ × Option ℚ :=
  let errorStatus := getErrorStatus error
  let delayDurationMs := if errorStatus = some 429 then
    getRetryAfterDelayMs parseDate now error
  else 0
  (delayDurationMs, errorStatus)

/-- Does the message match the regex of one literal 5 followed by two
digits, as tested by defaultShouldRetry. -/
def matches5xx : List Char → Bool
  | [] => false
  | c :: rest =>
    (c == '5' && (match rest with
      | a :: b :: _ => a.isDigit && b.isDigit
      | _ => false)) || matches5xx rest

/-- defaultShouldRetry from retry.ts.  An Error instance with a truthy
message is modelled as a value with a non-empty string message field. -/
def defaultShouldRetry (error : JsValue) : Bool :=
  (match getErrorStatus error with
   | some status => status == 429 || (500 ≤ status && status < 600)
   | none => false) ||
  (match getProp error ("message") with
   | some (.str m) =>
     !(m == "") && (strContains m ("429") || matches5xx m.data)
   | _ => false) ||
  isNetworkTransientError error

/-- RetryOptions from retry.ts, without the throttle tracking callback;
slept durations are reported in the wait trace of the loop instead. -/
structure RetryOptions where
  maxAttempts : Nat
  initialDelayMs : ℚ
  maxDelayMs : ℚ
  shouldRetry : JsValue → Bool

/-- DEFAULT_RETRY_OPTIONS from retry.ts. -/
def DEFAULT_RETRY_OPTIONS : RetryOptions :=
  { maxAttempts := 5
    initialDelayMs := 5000
    maxDelayMs := 30000
    shouldRetry := defaultShouldRetry }

/-- One slept delay of the loop: honoring Retry-After explicitly, or an
exponential backoff wait with jitter. -/
inductive Wait where
  | explicit : ℚ → Wait
  | backoff : ℚ → Wait
deriving DecidableEq

/-- The loop of retryWithBackoff from retry.ts.  The attempt argument
counts completed invocations, fn gives the outcome of each invocation in
order, rand models the Math.random() drawn before the backoff wait of
each attempt, and the returned list records every slept delay. -/
def retryLoop {α : Type} (opts : RetryOptions) (fn : Nat → Except JsValue α)
    (parseDate : String → Option ℤ) (now : ℤ) (rand : Nat → ℚ)
    (attempt : Nat) (currentDelay : ℚ) : Except JsValue α × List Wait :=
  if h : attempt < opts.maxAttempts then
    match fn attempt with
    | .ok value => (.ok value, [])
    | .error error =>
      if attempt + 1 ≥ opts.maxAttempts ∨ opts.shouldRetry error = false then
        (.error error, [])
      else
        let dd := getDelayDurationAndStatus parseDate now error
        if dd.1 > 0 then
          let rest := retryLoop opts fn parseDate now rand (attempt + 1)
            opts.initialDelayMs
          (rest.1, Wait.explicit dd.1 :: rest.2)
        else
          let jitter := currentDelay * (3 / 10) * (rand attempt * 2 - 1)
          let delayWithJitter := max 0 (currentDelay + jitter)
          let rest := retryLoop opts fn parseDate now rand (attempt + 1)
            (min opts.maxDelayMs (currentDelay * 2))
          (rest.1, Wait.backoff delayWithJitter :: rest.2)
  else
    (.error (.obj [("message", .str "Retry attempts exhausted")]), [])
termination_by opts.maxAttempts - attempt
decreasing_by all_goals omega

/-- retryWithBackoff from retry.ts, starting at zero completed attempts
with the initial delay. -/
def retryWithBackoff {α : Type} (opts : RetryOptions)
    (fn : Nat → Except JsValue α) (parseDate : String → Option ℤ) (now : ℤ)
    (rand : Nat → ℚ) : Except JsValue α × List Wait :=
  retryLoop opts fn parseDate now rand 0 opts.initialDelayMs

/-! ## profileManager.ts: saveProfile and loadProfile

The profiles directory is modelled as a map from profile name to file
content; the JSON codec of the runtime is exact on JSON values, so a file
written by saveProfile holds the profile as a value, while files written
by other means may hold unparseable text, modelled by the corrupt
constructor. -/

inductive FileContent where
  | json : JsValue → FileContent
  | corrupt : FileContent

def ProfileStore : Type := String → Option FileContent

/-- Truthiness of a possibly absent property. -/
def truthyOpt : Option JsValue → Bool
  | none => false
  | some v => truthy v

/-- Is the version property strictly equal to the number one. -/
def versionIsOne : Option JsValue → Bool
  | some (.num q) => q == 1
  | _ => false

/-- saveProfile from profileManager.ts: serialize the profile into the
file of that name. -/
def saveProfile (store : ProfileStore) (profileName : String)
    (profile : JsValue) : ProfileStore :=
  fun n => if n = profileName then some (.json profile) else store n

/-- loadProfile from profileManager.ts: read the file, parse it, check
the required fields and the version, mapping the failures to the typed
error messages of the source.  A null profile makes the first property
access itself throw a TypeError, which the catch block rethrows as is. -/
def loadProfile (store : ProfileStore) (profileName : String) :
    Except String JsValue :=
  match store profileName with
  | none => .error ("Profile '" ++ profileName ++ "' not found")
  | some .corrupt => .error ("Profile '" ++ profileName ++ "' is corrupted")
  | some (.json profile) =>
    match profile with
    | .null => .error ("TypeError: Cannot read properties of null")
    | _ =>
      if !truthyOpt (getProp profile ("version")) ||
         !truthyOpt (getProp profile ("provider")) ||
         !truthyOpt (getProp profile ("model")) ||
         !truthyOpt (getProp profile ("modelParams")) ||
         !truthyOpt (getProp profile ("ephemeralSettings")) then
        .error ("Profile '" ++ profileName ++ "' is invalid: missing required fields")
      else if !versionIsOne (getProp profile ("version")) then
        .error ("unsupported profile version")
      else
        .ok profile

/-! ## TemplateEngine.ts: processTemplate -/

def openBraces : List Char := ['{', '{']

def closeBraces : List Char := ['}', '}']

/-- Split at the first occurrence of the pattern: some (pre, post) with
the input equal to pre, the pattern, then post; none when the pattern
does not occur.  Models String.prototype.indexOf scanning. -/
def splitFirst (pat : List Char) (s : List Char) :
    Option (List Char × List Char) :=
  if startsWithSeq pat s then some ([], s.drop pat.length)
  else
    match s with
    | [] => none
    | c :: rest => (splitFirst pat rest).map (fun pr => (c :: pr.1, pr.2))

/-- A successful split decomposes the input around the pattern. -/
theorem splitFirst_sound {pat s pre post : List Char}
    (h : splitFirst pat s = some (pre, post)) : s = pre ++ pat ++ post := by
  induction s generalizing pre post with
  | nil =>
    unfold splitFirst at h
    by_cases hs : startsWithSeq pat []
    · simp only [hs, if_true] at h
      cases h
      have : List.take pat.length ([] : List Char) = pat := by
        simpa [startsWithSeq] using hs
      simp at this
      simp [← this]
    · simp [hs] at h
  | cons c rest ih =>
    unfold splitFirst at h
    by_cases hs : startsWithSeq pat (c :: rest)
    · simp only [hs, if_true] at h
      cases h
      have htake : List.take pat.length (c :: rest) = pat := by
        simpa [startsWithSeq] using hs
      conv_lhs => rw [← List.take_append_drop pat.length (c :: rest)]
      rw [htake]
      simp
    · simp only [hs, if_false] at h
      match hsp : splitFirst pat rest with
      | none => rw [hsp] at h; simp at h
      | some pr =>
        rw [hsp] at h
        simp only [Option.map_some'] at h
        cases h
        have := ih hsp
        simp [this]

/-- Model of the whitespace class trimmed by String.prototype.trim. -/
def jsIsSpace (c : Char) : Bool :=
  c.isWhitespace || c == Char.ofNat 0x0B || c == Char.ofNat 0x0C ||
  c == Char.ofNat 0xA0

/-- Model of String.prototype.trim on character lists. -/
def trimChars (l : List Char) : List Char :=
  ((l.dropWhile jsIsSpace).reverse.dropWhile jsIsSpace).reverse

/-- Variable lookup: the outer option models the in-operator test on the
map, the inner option a value that is null or undefined. -/
def lookupVar (vars : List (String × Option String)) (name : String) :
    Option (Option String) :=
  (vars.find? (fun p => p.1 == name)).map (fun p => p.2)

/-- processTemplate from TemplateEngine.ts on character lists, returning
the substituted text and the log entries emitted when debug is enabled.
Each step scans for the next open braces, then for the following close
braces, and dispatches on the trimmed variable name as the source does. -/
def processTemplateCs (vars : List (String × Option String)) (debug : Bool)
    (content : List Char) : List Char × List String :=
  match h1 : splitFirst openBraces content with
  | none => (content, [])
  | some (pre, post) =>
    match h2 : splitFirst closeBraces post with
    | none => (pre ++ openBraces ++ post, [])
    | some (inner, afterClose) =>
      let name := trimChars inner
      if name.isEmpty then
        let r := processTemplateCs vars debug afterClose
        (pre ++ openBraces ++ inner ++ closeBraces ++ r.1, r.2)
      else if containsSeq openBraces name || containsSeq closeBraces name then
        let r := processTemplateCs vars debug post
        (pre ++ openBraces ++ r.1, r.2)
      else
        match lookupVar vars (String.mk name) with
        | some (some value) =>
          let r := processTemplateCs vars debug afterClose
          (pre ++ value.data ++ r.1,
            (if debug then
              ["Template substitution: " ++ String.mk name ++ " -> " ++ value]
            else []) ++ r.2)
        | some none =>
          let r := processTemplateCs vars debug afterClose
          (pre ++ r.1, r.2)
        | none =>
          let r := processTemplateCs vars debug afterClose
          (pre ++ r.1,
            (if debug then
              ["Template substitution: " ++ String.mk name ++ " -> "]
            else []) ++ r.2)
termination_by content.length
decreasing_by
  all_goals
    have e1 := congrArg List.length (splitFirst_sound h1)
    have e2 := congrArg List.length (splitFirst_sound h2)
    simp only [List.length_append, openBraces, closeBraces, List.length_cons,
      List.length_nil] at e1 e2
    omega

/-- processTemplate at the string boundary: the debug flag is computed
from the DEBUG environment variable and the options, exactly the inputs
logSubstitution consults. -/
def processTemplate (content : String) (vars : List (String × Option String))
    (envDebug : Option String) (optionsDebug : Option Bool) :
    String × List String :=
  let debug := (envDebug == some "1") || (optionsDebug == some true)
  let r := processTemplateCs vars debug content.data
  (String.mk r.1, r.2)

/-! ## ProviderManager.ts: active provider resolution and token usage -/

/-- The manager state the cited methods touch: the registration map keys
in insertion order, the activeProvider settings key where the empty
string stands for an unset or cleared value, and the name of the pinned
server-tools provider. -/
structure PMState where
  registered : List String
  activeProvider : String
  serverToolsProvider : Option String
deriving DecidableEq

/-- setActiveProvider from ProviderManager.ts.  State clearing on the
previous provider and switch logging touch only collaborator state; the
settings write and the server-tools bookkeeping are modelled. -/
def setActiveProvider (s : PMState) (name : String) :
    Except String PMState :=
  if !s.registered.contains name then .error ("Provider not found")
  else
    let s1 : PMState := { s with activeProvider := name }
    if name = "gemini" then
      if s.serverToolsProvider ≠ some "gemini" then
        .ok { s1 with serverToolsProvider := some name }
      else .ok s1
    else
      if s.serverToolsProvider = none ∧ s.registered.contains "gemini" then
        .ok { s1 with serverToolsProvider := some "gemini" }
      else .ok s1

/-- getActiveProvider from ProviderManager.ts.  The configProvider
argument models the optional config.getProvider() result; the returned
pair is the provider name the manager resolves together with the state
after any write-back. -/
def getActiveProvider (s : PMState) (configProvider : Option String) :
    Except String (String × PMState) :=
  let activeProviderName := s.activeProvider
  let step : Except String (String × PMState) :=
    if activeProviderName = "" then
      let fallback : String :=
        if s.registered.contains "openai" then "openai"
        else s.registered.head?.getD ""
      let resolvedName : String :=
        match configProvider with
        | some p => if p ≠ "" ∧ s.registered.contains p then p else fallback
        | none => fallback
      if resolvedName = "" then .ok ("", s)
      else
        match setActiveProvider s resolvedName with
        | .ok s1 => .ok (resolvedName, s1)
        | .error m =>
          .error ("Unable to set default provider '" ++ resolvedName ++
            "': Error: " ++ m)
    else .ok (activeProviderName, s)
  match step with
  | .error m => .error m
  | .ok (resolvedName, s1) =>
    if resolvedName = "" then .error ("No active provider set")
    else if s1.registered.contains resolvedName then .ok (resolvedName, s1)
    else .error ("Active provider not found")

/-- The session token accumulator record of ProviderManager.ts. -/
structure SessionTokenUsage where
  input : ℚ
  output : ℚ
  cache : ℚ
  tool : ℚ
  thought : ℚ
  total : ℚ
deriving DecidableEq

/-- One usage argument of accumulateSessionTokens; none models an absent
or not-a-number component, which the source maps to zero. -/
structure TokenUsageInput where
  input : Option ℚ
  output : Option ℚ
  cache : Option ℚ
  tool : Option ℚ
  thought : Option ℚ

/-- Model of the or-zero guard applied to each usage component. -/
def jsOr0 (x : Option ℚ) : ℚ := x.getD 0

/-- accumulateSessionTokens from ProviderManager.ts: clamp each component
to be non-negative, add it to its counter, and add the sum of the five
clamped components to the total. -/
def accumulateSessionTokens (_providerName : String) (s : SessionTokenUsage)
    (usage : TokenUsageInput) : SessionTokenUsage :=
  { input := s.input + max 0 (jsOr0 usage.input)
    output := s.output + max 0 (jsOr0 usage.output)
    cache := s.cache + max 0 (jsOr0 usage.cache)
    tool := s.tool + max 0 (jsOr0 usage.tool)
    thought := s.thought + max 0 (jsOr0 usage.thought)
    total := s.total +
      (max 0 (jsOr0 usage.input) + max 0 (jsOr0 usage.output) +
       max 0 (jsOr0 usage.cache) + max 0 (jsOr0 usage.tool) +
       max 0 (jsOr0 usage.thought)) }

/-- resetSessionTokenUsage from ProviderManager.ts, which is also the
counter state of a freshly constructed manager. -/
def resetSessionTokenUsage : SessionTokenUsage :=
  { input := 0, output := 0, cache := 0, tool := 0, thought := 0, total := 0 }

/-- The or-zero guard getSessionTokenUsage applies to each counter. -/
def jsNumOr0 (q : ℚ) : ℚ := if q == 0 then 0 else q

/-- getSessionTokenUsage from ProviderManager.ts. -/
def getSessionTokenUsage (s : SessionTokenUsage) : SessionTokenUsage :=
  { input := jsNumOr0 s.input
    output := jsNumOr0 s.output
    cache := jsNumOr0 s.cache
    tool := jsNumOr0 s.tool
    thought := jsNumOr0 s.thought
    total := jsNumOr0 s.total }

/-! ## Helper lemmas -/

/-- The invariant of the session token accumulator: non-negative
components whose sum is the total. -/
def sessionInvariant (s : SessionTokenUsage) : Prop :=
  0 ≤ s.input ∧ 0 ≤ s.output ∧ 0 ≤ s.cache ∧ 0 ≤ s.tool ∧ 0 ≤ s.thought ∧
  s.total = s.input + s.output + s.cache + s.tool + s.thought

theorem sessionInvariant_reset : sessionInvariant resetSessionTokenUsage := by
  simp [sessionInvariant, resetSessionTokenUsage]

theorem sessionInvariant_accumulate {s : SessionTokenUsage}
    (h : sessionInvariant s) (p : String) (u : TokenUsageInput) :
    sessionInvariant (accumulateSessionTokens p s u) := by
  obtain ⟨hi, ho, hc, ht, hh, htot⟩ := h
  refine ⟨?_, ?_, ?_, ?_, ?_, ?_⟩ <;>
    simp only [accumulateSessionTokens]
  · exact add_nonneg hi (le_max_left 0 _)
  · exact add_nonneg ho (le_max_left 0 _)
  · exact add_nonneg hc (le_max_left 0 _)
  · exact add_nonneg ht (le_max_left 0 _)
  · exact add_nonneg hh (le_max_left 0 _)
  · rw [htot]; ring

theorem sessionInvariant_foldl (us : List (String × TokenUsageInput))
    {s : SessionTokenUsage} (h : sessionInvariant s) :
    sessionInvariant
      (us.foldl (fun st pu => accumulateSessionTokens pu.1 st pu.2) s) := by
  induction us generalizing s with
  | nil => exact h
  | cons hd tl ih =>
    exact ih (sessionInvariant_accumulate h hd.1 hd.2)

theorem jsNumOr0_eq (q : ℚ) : jsNumOr0 q = q := by
  by_cases h : q == 0
  · simp only [jsNumOr0, h, if_true]
    exact (eq_of_beq h).symm
  · simp [jsNumOr0, h]

theorem getSessionTokenUsage_eq (s : SessionTokenUsage) :
    getSessionTokenUsage s = s := by
  simp [getSessionTokenUsage, jsNumOr0_eq]

/-- C10: after any sequence of accumulations from a reset state, every
reported component is non-negative and the reported total is the sum of
the five components. -/
theorem accumulateSessionTokens_invariant
    (us : List (String × TokenUsageInput)) :
    let g := getSessionTokenUsage
      (us.foldl (fun st pu => accumulateSessionTokens pu.1 st pu.2)
        resetSessionTokenUsage)
    0 ≤ g.input ∧ 0 ≤ g.output ∧ 0 ≤ g.cache ∧ 0 ≤ g.tool ∧ 0 ≤ g.thought ∧
    0 ≤ g.total ∧
    g.total = g.input + g.output + g.cache + g.tool + g.thought := by
  intro g
  have hinv := sessionInvariant_foldl us sessionInvariant_reset
  obtain ⟨hi, ho, hc, ht, hh, htot⟩ := hinv
  have hg : g = us.foldl (fun st pu => accumulateSessionTokens pu.1 st pu.2)
      resetSessionTokenUsage := getSessionTokenUsage_eq _
  rw [hg]
  refine ⟨hi, ho, hc, ht, hh, ?_, htot⟩
  rw [htot]
  have := add_nonneg (add_nonneg (add_nonneg (add_nonneg hi ho) hc) ht) hh
  linarith

/-! Manual equation lemmas for processTemplateCs, one per branch of the
scanning loop. -/

theorem processTemplateCs_none (vars : List (String × Option String))
    (d : Bool) (content : List Char)
    (h : splitFirst openBraces content = none) :
    processTemplateCs vars d content = (content, []) := by
  unfold processTemplateCs
  split
  · rfl
  · rename_i pr heq
    rw [h] at heq
    cases heq

theorem processTemplateCs_noclose (vars : List (String × Option String))
    (d : Bool) (content pre post : List Char)
    (h1 : splitFirst openBraces content = some (pre, post))
    (h2 : splitFirst closeBraces post = none) :
    processTemplateCs vars d content = (pre ++ openBraces ++ post, []) := by
  unfold processTemplateCs
  split
  · rename_i heq; rw [h1] at heq; cases heq
  · rename_i pr heq
    rw [h1] at heq
    cases heq
    split
    · rfl
    · rename_i pr2 heq2
      rw [h2] at heq2
      cases heq2

theorem processTemplateCs_emptyname (vars : List (String × Option String))
    (d : Bool) (content pre post inner afterClose : List Char)
    (h1 : splitFirst openBraces content = some (pre, post))
    (h2 : splitFirst closeBraces post = some (inner, afterClose))
    (hname : trimChars inner = []) :
    processTemplateCs vars d content =
      (pre ++ openBraces ++ inner ++ closeBraces ++
        (processTemplateCs vars d afterClose).1,
       (processTemplateCs vars d afterClose).2) := by
  conv_lhs => unfold processTemplateCs
  split
  · rename_i heq; rw [h1] at heq; cases heq
  · rename_i pr heq
    rw [h1] at heq
    cases heq
    split
    · rename_i heq2; rw [h2] at heq2; cases heq2
    · rename_i pr2 heq2
      rw [h2] at heq2
      cases heq2
      simp [hname]

theorem processTemplateCs_nested (vars : List (String × Option String))
    (d : Bool) (content pre post inner afterClose : List Char)
    (h1 : splitFirst openBraces content = some (pre, post))
    (h2 : splitFirst closeBraces post = some (inner, afterClose))
    (hname : trimChars inner ≠ [])
    (hbr : (containsSeq openBraces (trimChars inner) ||
      containsSeq closeBraces (trimChars inner)) = true) :
    processTemplateCs vars d content =
      (pre ++ openBraces ++ (processTemplateCs vars d post).1,
       (processTemplateCs vars d post).2) := by
  conv_lhs => unfold processTemplateCs
  split
  · rename_i heq; rw [h1] at heq; cases heq
  · rename_i pr heq
    rw [h1] at heq
    cases heq
    split
    · rename_i heq2; rw [h2] at heq2; cases heq2
    · rename_i pr2 heq2
      rw [h2] at heq2
      cases heq2
      rw [if_neg (by simp [hname]), if_pos (by simp_all)]

theorem processTemplateCs_subst (vars : List (String × Option String))
    (d : Bool) (content pre post inner afterClose : List Char)
    (value : String)
    (h1 : splitFirst openBraces content = some (pre, post))
    (h2 : splitFirst closeBraces post = some (inner, afterClose))
    (hname : trimChars inner ≠ [])
    (hbr : (containsSeq openBraces (trimChars inner) ||
      containsSeq closeBraces (trimChars inner)) = false)
    (hv : lookupVar vars (String.mk (trimChars inner)) = some (some value)) :
    processTemplateCs vars d content =
      (pre ++ value.data ++ (processTemplateCs vars d afterClose).1,
       (if d then
         ["Template substitution: " ++ String.mk (trimChars inner) ++
           " -> " ++ value]
       else []) ++ (processTemplateCs vars d afterClose).2) := by
  conv_lhs => unfold processTemplateCs
  split
  · rename_i heq; rw [h1] at heq; cases heq
  · rename_i pr heq
    rw [h1] at heq
    cases heq
    split
    · rename_i heq2; rw [h2] at heq2; cases heq2
    · rename_i pr2 heq2
      rw [h2] at heq2
      cases heq2
      rw [if_neg (by simp [hname]), if_neg (by simp_all)]
      split
      · rename_i v hveq
        rw [hv] at hveq
        cases hveq
        rfl
      · rename_i hveq; rw [hv] at hveq; cases hveq
      · rename_i hveq; rw [hv] at hveq; cases hveq

theorem processTemplateCs_nullvalue (vars : List (String × Option String))
    (d : Bool) (content pre post inner afterClose : List Char)
    (h1 : splitFirst openBraces content = some (pre, post))
    (h2 : splitFirst closeBraces post = some (inner, afterClose))
    (hname : trimChars inner ≠ [])
    (hbr : (containsSeq openBraces (trimChars inner) ||
      containsSeq closeBraces (trimChars inner)) = false)
    (hv : lookupVar vars (String.mk (trimChars inner)) = some none) :
    processTemplateCs vars d content =
      (pre ++ (processTemplateCs vars d afterClose).1,
       (processTemplateCs vars d afterClose).2) := by
  conv_lhs => unfold processTemplateCs
  split
  · rename_i heq; rw [h1] at heq; cases heq
  · rename_i pr heq
    rw [h1] at heq
    cases heq
    split
    · rename_i heq2; rw [h2] at heq2; cases heq2
    · rename_i pr2 heq2
      rw [h2] at heq2
      cases heq2
      rw [if_neg (by simp [hname]), if_neg (by simp_all)]
      split
      · rename_i v hveq; rw [hv] at hveq; cases hveq
      · rename_i hveq
        rw [hv] at hveq
        all_goals try cases hveq
        all_goals rfl
      · rename_i hveq; rw [hv] at hveq; cases hveq

theorem processTemplateCs_missing (vars : List (String × Option String))
    (d : Bool) (content pre post inner afterClose : List Char)
    (h1 : splitFirst openBraces content = some (pre, post))
    (h2 : splitFirst closeBraces post = some (inner, afterClose))
    (hname : trimChars inner ≠ [])
    (hbr : (containsSeq openBraces (trimChars inner) ||
      containsSeq closeBraces (trimChars inner)) = false)
    (hv : lookupVar vars (String.mk (trimChars inner)) = none) :
    processTemplateCs vars d content =
      (pre ++ (processTemplateCs vars d afterClose).1,
       (if d then
         ["Template substitution: " ++ String.mk (trimChars inner) ++ " -> "]
       else []) ++ (processTemplateCs vars d afterClose).2) := by
  conv_lhs => unfold processTemplateCs
  split
  · rename_i heq; rw [h1] at heq; cases heq
  · rename_i pr heq
    rw [h1] at heq
    cases heq
    split
    · rename_i heq2; rw [h2] at heq2; cases heq2
    · rename_i pr2 heq2
      rw [h2] at heq2
      cases heq2
      rw [if_neg (by simp [hname]), if_neg (by simp_all)]
      split
      · rename_i v hveq; rw [hv] at hveq; cases hveq
      · rename_i hveq; rw [hv] at hveq; cases hveq
      · rfl

/-- The substituted text computed by processTemplateCs does not depend on
the debug flag, which only controls logging. -/
theorem processTemplateCs_fst_debug_indep
    (vars : List (String × Option String)) :
    ∀ (n : Nat) (content : List Char), content.length ≤ n → ∀ d1 d2,
      (processTemplateCs vars d1 content).1 =
        (processTemplateCs vars d2 content).1 := by
  intro n
  induction n with
  | zero =>
    intro content hlen d1 d2
    have hc : content = [] := by
      cases content
      · rfl
      · simp at hlen
    subst hc
    rw [processTemplateCs_none vars d1 [] (by decide),
      processTemplateCs_none vars d2 [] (by decide)]
  | succ n ih =>
    intro content hlen d1 d2
    cases h1 : splitFirst openBraces content with
    | none =>
      rw [processTemplateCs_none vars d1 content h1,
        processTemplateCs_none vars d2 content h1]
    | some pr1 =>
      obtain ⟨pre, post⟩ := pr1
      have e1 := congrArg List.length (splitFirst_sound h1)
      simp only [List.length_append, openBraces, List.length_cons,
        List.length_nil] at e1
      cases h2 : splitFirst closeBraces post with
      | none =>
        rw [processTemplateCs_noclose vars d1 content pre post h1 h2,
          processTemplateCs_noclose vars d2 content pre post h1 h2]
      | some pr2 =>
        obtain ⟨inner, afterClose⟩ := pr2
        have e2 := congrArg List.length (splitFirst_sound h2)
        simp only [List.length_append, closeBraces, List.length_cons,
          List.length_nil] at e2
        have hafter : afterClose.length ≤ n := by omega
        have hpost : post.length ≤ n := by omega
        by_cases hname : trimChars inner = []
        · rw [processTemplateCs_emptyname vars d1 content pre post inner
            afterClose h1 h2 hname,
            processTemplateCs_emptyname vars d2 content pre post inner
            afterClose h1 h2 hname]
          simp only
          rw [ih afterClose hafter d1 d2]
        · cases hbr : containsSeq openBraces (trimChars inner) ||
            containsSeq closeBraces (trimChars inner) with
          | true =>
            rw [processTemplateCs_nested vars d1 content pre post inner
              afterClose h1 h2 hname hbr,
              processTemplateCs_nested vars d2 content pre post inner
              afterClose h1 h2 hname hbr]
            simp only
            rw [ih post hpost d1 d2]
          | false =>
            cases hv : lookupVar vars (String.mk (trimChars inner)) with
            | none =>
              rw [processTemplateCs_missing vars d1 content pre post inner
                afterClose h1 h2 hname hbr hv,
                processTemplateCs_missing vars d2 content pre post inner
                afterClose h1 h2 hname hbr hv]
              simp only
              rw [ih afterClose hafter d1 d2]
            | some ov =>
              cases ov with
              | none =>
                rw [processTemplateCs_nullvalue vars d1 content pre post inner
                  afterClose h1 h2 hname hbr hv,
                  processTemplateCs_nullvalue vars d2 content pre post inner
                  afterClose h1 h2 hname hbr hv]
                simp only
                rw [ih afterClose hafter d1 d2]
              | some value =>
                rw [processTemplateCs_subst vars d1 content pre post inner
                  afterClose value h1 h2 hname hbr hv,
                  processTemplateCs_subst vars d2 content pre post inner
                  afterClose value h1 h2 hname hbr hv]
                simp only
                rw [ih afterClose hafter d1 d2]

/-- C9: processTemplate is deterministic in the template text and the
variable map; the debug environment variable and the options argument
never change the returned text. -/
theorem processTemplate_deterministic (content : String)
    (vars : List (String × Option String)) (env1 env2 : Option String)
    (opt1 opt2 : Option Bool) :
    (processTemplate content vars env1 opt1).1 =
      (processTemplate content vars env2 opt2).1 := by
  simp only [processTemplate]
  exact congrArg String.mk
    (processTemplateCs_fst_debug_indep vars content.data.length content.data
      (le_refl _) _ _)

/-! Manual equation lemmas for retryLoop, one per branch of the loop
body. -/

theorem retryLoop_ok {α : Type} (opts : RetryOptions)
    (fn : Nat → Except JsValue α) (parseDate : String → Option ℤ) (now : ℤ)
    (rand : Nat → ℚ) (attempt : Nat) (currentDelay : ℚ) {v : α}
    (h : attempt < opts.maxAttempts) (hf : fn attempt = .ok v) :
    retryLoop opts fn parseDate now rand attempt currentDelay = (.ok v, []) := by
  unfold retryLoop
  rw [dif_pos h, hf]

theorem retryLoop_final {α : Type} (opts : RetryOptions)
    (fn : Nat → Except JsValue α) (parseDate : String → Option ℤ) (now : ℤ)
    (rand : Nat → ℚ) (attempt : Nat) (currentDelay : ℚ) {e : JsValue}
    (h : attempt < opts.maxAttempts) (hf : fn attempt = .error e)
    (hstop : attempt + 1 ≥ opts.maxAttempts ∨ opts.shouldRetry e = false) :
    retryLoop opts fn parseDate now rand attempt currentDelay =
      (.error e, []) := by
  unfold retryLoop
  rw [dif_pos h, hf]
  simp only [if_pos hstop]

theorem retryLoop_explicit {α : Type} (opts : RetryOptions)
    (fn : Nat → Except JsValue α) (parseDate : String → Option ℤ) (now : ℤ)
    (rand : Nat → ℚ) (attempt : Nat) (currentDelay : ℚ) {e : JsValue}
    (h : attempt + 1 < opts.maxAttempts) (hf : fn attempt = .error e)
    (hretry : opts.shouldRetry e = true)
    (hdd : (getDelayDurationAndStatus parseDate now e).1 > 0) :
    retryLoop opts fn parseDate now rand attempt currentDelay =
      ((retryLoop opts fn parseDate now rand (attempt + 1)
          opts.initialDelayMs).1,
       Wait.explicit (getDelayDurationAndStatus parseDate now e).1 ::
         (retryLoop opts fn parseDate now rand (attempt + 1)
           opts.initialDelayMs).2) := by
  conv_lhs => unfold retryLoop
  rw [dif_pos (by omega)]
  split
  · rename_i v hveq; rw [hf] at hveq; cases hveq
  · rename_i err hveq
    rw [hf] at hveq
    cases hveq
    rw [if_neg (show ¬ (attempt + 1 ≥ opts.maxAttempts ∨
        opts.shouldRetry e = false) from by
      rintro (hc | hc)
      · omega
      · rw [hretry] at hc; cases hc)]
    simp only [if_pos hdd]

theorem retryLoop_backoff {α : Type} (opts : RetryOptions)
    (fn : Nat → Except JsValue α) (parseDate : String → Option ℤ) (now : ℤ)
    (rand : Nat → ℚ) (attempt : Nat) (currentDelay : ℚ) {e : JsValue}
    (h : attempt + 1 < opts.maxAttempts) (hf : fn attempt = .error e)
    (hretry : opts.shouldRetry e = true)
    (hdd : ¬ (getDelayDurationAndStatus parseDate now e).1 > 0) :
    retryLoop opts fn parseDate now rand attempt currentDelay =
      ((retryLoop opts fn parseDate now rand (attempt + 1)
          (min opts.maxDelayMs (currentDelay * 2))).1,
       Wait.backoff
         (max 0 (currentDelay +
           currentDelay * (3 / 10) * (rand attempt * 2 - 1))) ::
         (retryLoop opts fn parseDate now rand (attempt + 1)
           (min opts.maxDelayMs (currentDelay * 2))).2) := by
  conv_lhs => unfold retryLoop
  rw [dif_pos (by omega)]
  split
  · rename_i v hveq; rw [hf] at hveq; cases hveq
  · rename_i err hveq
    rw [hf] at hveq
    cases hveq
    rw [if_neg (show ¬ (attempt + 1 ≥ opts.maxAttempts ∨
        opts.shouldRetry e = false) from by
      rintro (hc | hc)
      · omega
      · rw [hretry] at hc; cases hc)]
    simp only [if_neg hdd]

theorem retryLoop_exhausted {α : Type} (opts : RetryOptions)
    (fn : Nat → Except JsValue α) (parseDate : String → Option ℤ) (now : ℤ)
    (rand : Nat → ℚ) (attempt : Nat) (currentDelay : ℚ)
    (h : ¬ attempt < opts.maxAttempts) :
    retryLoop opts fn parseDate now rand attempt currentDelay =
      (.error (.obj [("message", .str "Retry attempts exhausted")]), []) := by
  unfold retryLoop
  rw [dif_neg h]

/-- Skipping lemma: while every completed attempt failed with an error
the predicate retries and attempts remain, the result of the loop is the
result of the loop started after those attempts, at some current delay. -/
theorem retryLoop_skip {α : Type} (opts : RetryOptions)
    (fn : Nat → Except JsValue α) (parseDate : String → Option ℤ) (now : ℤ)
    (rand : Nat → ℚ) :
    ∀ (k attempt : Nat) (currentDelay : ℚ),
      attempt + k < opts.maxAttempts →
      (∀ j, j < k → ∃ e, fn (attempt + j) = .error e ∧
        opts.shouldRetry e = true) →
      ∃ d, (retryLoop opts fn parseDate now rand attempt currentDelay).1 =
        (retryLoop opts fn parseDate now rand (attempt + k) d).1 := by
  intro k
  induction k with
  | zero => intro attempt d _ _; exact ⟨d, rfl⟩
  | succ k ih =>
    intro attempt d hlt hall
    obtain ⟨e, hf, hr⟩ := hall 0 (Nat.succ_pos k)
    rw [Nat.add_zero] at hf
    have hstep : attempt + 1 + k < opts.maxAttempts := by omega
    have hall1 : ∀ j, j < k → ∃ e, fn (attempt + 1 + j) = .error e ∧
        opts.shouldRetry e = true := by
      intro j hj
      have := hall (j + 1) (by omega)
      simpa [Nat.add_assoc, Nat.add_comm 1 j] using this
    by_cases hdd : (getDelayDurationAndStatus parseDate now e).1 > 0
    · rw [retryLoop_explicit opts fn parseDate now rand attempt d
        (by omega) hf hr hdd]
      obtain ⟨d1, hd1⟩ := ih (attempt + 1) opts.initialDelayMs hstep hall1
      exact ⟨d1, by simpa [Nat.add_assoc, Nat.add_comm 1 k] using hd1⟩
    · rw [retryLoop_backoff opts fn parseDate now rand attempt d
        (by omega) hf hr hdd]
      obtain ⟨d1, hd1⟩ := ih (attempt + 1)
        (min opts.maxDelayMs (d * 2)) hstep hall1
      exact ⟨d1, by simpa [Nat.add_assoc, Nat.add_comm 1 k] using hd1⟩

/-- C3: the retry engine returns the first successful invocation value;
a failure that the predicate rejects or that exhausts the attempt budget
is re-raised; with a budget of one attempt any error is re-raised at
once and nothing is retried. -/
theorem retryWithBackoff_contract {α : Type} :
    (∀ (opts : RetryOptions) (fn : Nat → Except JsValue α)
      (parseDate : String → Option ℤ) (now : ℤ) (rand : Nat → ℚ)
      (k : Nat) (v : α),
      k < opts.maxAttempts →
      (∀ j, j < k → ∃ e, fn j = .error e ∧ opts.shouldRetry e = true) →
      fn k = .ok v →
      (retryWithBackoff opts fn parseDate now rand).1 = .ok v) ∧
    (∀ (opts : RetryOptions) (fn : Nat → Except JsValue α)
      (parseDate : String → Option ℤ) (now : ℤ) (rand : Nat → ℚ)
      (k : Nat) (e : JsValue),
      k < opts.maxAttempts →
      (∀ j, j < k → ∃ e, fn j = .error e ∧ opts.shouldRetry e = true) →
      fn k = .error e →
      (k + 1 = opts.maxAttempts ∨ opts.shouldRetry e = false) →
      (retryWithBackoff opts fn parseDate now rand).1 = .error e) ∧
    (∀ (opts : RetryOptions) (fn : Nat → Except JsValue α)
      (parseDate : String → Option ℤ) (now : ℤ) (rand : Nat → ℚ)
      (e : JsValue),
      opts.maxAttempts = 1 → fn 0 = .error e →
      retryWithBackoff opts fn parseDate now rand = (.error e, [])) := by
  refine ⟨?_, ?_, ?_⟩
  · intro opts fn parseDate now rand k v hk hall hok
    obtain ⟨d, hd⟩ := retryLoop_skip opts fn parseDate now rand k 0
      opts.initialDelayMs (by omega)
      (by intro j hj; simpa using hall j hj)
    rw [retryWithBackoff, hd]
    simp only [Nat.zero_add]
    rw [retryLoop_ok opts fn parseDate now rand k d hk hok]
  · intro opts fn parseDate now rand k e hk hall herr hstop
    obtain ⟨d, hd⟩ := retryLoop_skip opts fn parseDate now rand k 0
      opts.initialDelayMs (by omega)
      (by intro j hj; simpa using hall j hj)
    rw [retryWithBackoff, hd]
    simp only [Nat.zero_add]
    have hfin : k + 1 ≥ opts.maxAttempts ∨ opts.shouldRetry e = false := by
      rcases hstop with h | h
      · exact Or.inl (by omega)
      · exact Or.inr h
    rw [retryLoop_final opts fn parseDate now rand k d hk herr hfin]
  · intro opts fn parseDate now rand e h1 hf
    rw [retryWithBackoff]
    rw [retryLoop_final opts fn parseDate now rand 0 opts.initialDelayMs
      (by omega) hf (Or.inl (by omega))]

/-- Witness for retryWithBackoff_contract: a success after one retryable
failure, a rejected failure, and a single-attempt budget. -/
theorem retryWithBackoff_contract_witness :
    (retryWithBackoff (α := Nat)
      { maxAttempts := 2, initialDelayMs := 100, maxDelayMs := 1000,
        shouldRetry := fun _ => true }
      (fun n => if n = 0 then .error (.str "boom") else .ok 7)
      (fun _ => none) 0 (fun _ => 0)).1 = .ok 7 ∧
    (retryWithBackoff (α := Nat)
      { maxAttempts := 3, initialDelayMs := 100, maxDelayMs := 1000,
        shouldRetry := fun _ => false }
      (fun _ => .error (.str "fatal"))
      (fun _ => none) 0 (fun _ => 0)).1 = .error (.str "fatal") ∧
    retryWithBackoff (α := Nat)
      { maxAttempts := 1, initialDelayMs := 100, maxDelayMs := 1000,
        shouldRetry := fun _ => true }
      (fun _ => .error (.str "once"))
      (fun _ => none) 0 (fun _ => 0) = (.error (.str "once"), []) := by
  refine ⟨?_, ?_, ?_⟩
  · refine retryWithBackoff_contract.1 _ _ _ _ _ 1 7 (by decide) ?_ rfl
    intro j hj
    have hj0 : j = 0 := by omega
    subst hj0
    exact ⟨.str "boom", rfl, rfl⟩
  · refine retryWithBackoff_contract.2.1 _ _ _ _ _ 0 (.str "fatal")
      (by decide) ?_ rfl (Or.inr rfl)
    intro j hj
    omega
  · exact retryWithBackoff_contract.2.2 _ _ _ _ _ (.str "once") rfl rfl

/-- C1: on a retried attempt whose error has status 429 and a
Retry-After header parsing as a positive integer number of seconds, the
engine sleeps that many seconds in milliseconds as an explicit wait, not
a backoff wait, and the loop continues with the backoff progression
reset to the initial delay. -/
theorem retryAfter_honored {α : Type} (opts : RetryOptions)
    (fn : Nat → Except JsValue α) (parseDate : String → Option ℤ) (now : ℤ)
    (rand : Nat → ℚ) (attempt : Nat) (currentDelay : ℚ) (e : JsValue)
    (efs rs hs : List (String × JsValue)) (header : String) (s : ℤ)
    (he : e = .obj efs)
    (hresp : lookupField efs ("response") = some (.obj rs))
    (hheaders : lookupField rs ("headers") = some (.obj hs))
    (hra : lookupField hs ("retry-after") = some (.str header))
    (hparse : jsParseInt header = some s) (hpos : 0 < s)
    (hstatus : getErrorStatus e = some 429)
    (hf : fn attempt = .error e)
    (hretry : opts.shouldRetry e = true)
    (hroom : attempt + 1 < opts.maxAttempts) :
    ∃ w,
      retryLoop opts fn parseDate now rand attempt currentDelay =
        ((retryLoop opts fn parseDate now rand (attempt + 1)
            opts.initialDelayMs).1,
         Wait.explicit w ::
           (retryLoop opts fn parseDate now rand (attempt + 1)
             opts.initialDelayMs).2) ∧
      (s : ℚ) * 1000 ≤ w := by
  have hdelay : getRetryAfterDelayMs parseDate now e = (s : ℚ) * 1000 := by
    subst he
    unfold getRetryAfterDelayMs
    simp only [hresp, hheaders, hra, hparse]
  have hdd : (getDelayDurationAndStatus parseDate now e).1 = (s : ℚ) * 1000 := by
    simp [getDelayDurationAndStatus, hstatus, hdelay]
  have hspos : (0 : ℚ) < (s : ℚ) * 1000 := by
    have : (0 : ℚ) < (s : ℚ) := by exact_mod_cast hpos
    linarith
  refine ⟨(getDelayDurationAndStatus parseDate now e).1, ?_, ?_⟩
  · exact retryLoop_explicit opts fn parseDate now rand attempt currentDelay
      hroom hf hretry (by rw [hdd]; exact hspos)
  · rw [hdd]

/-- Witness for retryAfter_honored: a 429 error with Retry-After of two
seconds under the default options. -/
theorem retryAfter_honored_witness :
    ∃ w,
      retryLoop (α := Nat) DEFAULT_RETRY_OPTIONS
        (fun _ => .error (.obj [("status", .num 429),
          ("response", .obj [("headers",
            .obj [("retry-after", .str "2")])])]))
        (fun _ => none) 0 (fun _ => 0) 0 5000 =
        ((retryLoop (α := Nat) DEFAULT_RETRY_OPTIONS
            (fun _ => .error (.obj [("status", .num 429),
              ("response", .obj [("headers",
                .obj [("retry-after", .str "2")])])]))
            (fun _ => none) 0 (fun _ => 0) 1
            DEFAULT_RETRY_OPTIONS.initialDelayMs).1,
         Wait.explicit w ::
           (retryLoop (α := Nat) DEFAULT_RETRY_OPTIONS
             (fun _ => .error (.obj [("status", .num 429),
               ("response", .obj [("headers",
                 .obj [("retry-after", .str "2")])])]))
             (fun _ => none) 0 (fun _ => 0) 1
             DEFAULT_RETRY_OPTIONS.initialDelayMs).2) ∧
      ((2 : ℤ) : ℚ) * 1000 ≤ w :=
  retryAfter_honored DEFAULT_RETRY_OPTIONS
    (fun _ => .error (.obj [("status", .num 429),
      ("response", .obj [("headers", .obj [("retry-after", .str "2")])])]))
    (fun _ => none) 0 (fun _ => 0) 0 5000
    (.obj [("status", .num 429),
      ("response", .obj [("headers", .obj [("retry-after", .str "2")])])])
    [("status", .num 429),
      ("response", .obj [("headers", .obj [("retry-after", .str "2")])])]
    [("headers", .obj [("retry-after", .str "2")])]
    [("retry-after", .str "2")] "2" 2
    rfl rfl rfl rfl rfl (by decide) rfl rfl
    (by decide) (by decide)

/-- C7: the default options are five attempts, five seconds initial
delay and thirty seconds maximum delay; a backoff wait sleeps the
current delay plus a jitter of at most thirty percent of it, clamped to
be non-negative, and the loop continues with the delay doubled and
clamped to the maximum. -/
theorem backoff_defaults_and_jitter {α : Type} (opts : RetryOptions)
    (fn : Nat → Except JsValue α) (parseDate : String → Option ℤ) (now : ℤ)
    (rand : Nat → ℚ) (attempt : Nat) (currentDelay : ℚ) (e : JsValue)
    (hf : fn attempt = .error e)
    (hretry : opts.shouldRetry e = true)
    (hroom : attempt + 1 < opts.maxAttempts)
    (hdd : (getDelayDurationAndStatus parseDate now e).1 ≤ 0)
    (hdel : 0 ≤ currentDelay)
    (hr0 : 0 ≤ rand attempt) (hr1 : rand attempt ≤ 1) :
    DEFAULT_RETRY_OPTIONS.maxAttempts = 5 ∧
    DEFAULT_RETRY_OPTIONS.initialDelayMs = 5000 ∧
    DEFAULT_RETRY_OPTIONS.maxDelayMs = 30000 ∧
    ∃ w,
      retryLoop opts fn parseDate now rand attempt currentDelay =
        ((retryLoop opts fn parseDate now rand (attempt + 1)
            (min opts.maxDelayMs (currentDelay * 2))).1,
         Wait.backoff w ::
           (retryLoop opts fn parseDate now rand (attempt + 1)
             (min opts.maxDelayMs (currentDelay * 2))).2) ∧
      w = max 0 (currentDelay +
        currentDelay * (3 / 10) * (rand attempt * 2 - 1)) ∧
      0 ≤ w ∧
      |w - currentDelay| ≤ (3 / 10) * currentDelay := by
  refine ⟨rfl, rfl, rfl, ?_⟩
  set j := currentDelay * (3 / 10) * (rand attempt * 2 - 1) with hj
  have hjub : j ≤ (3 / 10) * currentDelay := by
    rw [hj]
    nlinarith
  have hjlb : -((3 / 10) * currentDelay) ≤ j := by
    rw [hj]
    nlinarith
  have hnn : 0 ≤ currentDelay + j := by nlinarith
  have hmax : max 0 (currentDelay + j) = currentDelay + j := max_eq_right hnn
  refine ⟨max 0 (currentDelay + j), ?_, rfl, le_max_left 0 _, ?_⟩
  · exact retryLoop_backoff opts fn parseDate now rand attempt currentDelay
      hroom hf hretry (by linarith)
  · rw [hmax]
    rw [abs_le]
    constructor
    · linarith
    · linarith

/-- Witness for backoff_defaults_and_jitter: a retryable error without
status under the default options, with the random draw at one half. -/
theorem backoff_defaults_and_jitter_witness :
    DEFAULT_RETRY_OPTIONS.maxAttempts = 5 ∧
    DEFAULT_RETRY_OPTIONS.initialDelayMs = 5000 ∧
    DEFAULT_RETRY_OPTIONS.maxDelayMs = 30000 ∧
    ∃ w,
      retryLoop (α := Nat) DEFAULT_RETRY_OPTIONS
        (fun _ => .error (.str "socket hang up"))
        (fun _ => none) 0 (fun _ => 1 / 2) 0 5000 =
        ((retryLoop (α := Nat) DEFAULT_RETRY_OPTIONS
            (fun _ => .error (.str "socket hang up"))
            (fun _ => none) 0 (fun _ => 1 / 2) 1
            (min DEFAULT_RETRY_OPTIONS.maxDelayMs (5000 * 2))).1,
         Wait.backoff w ::
           (retryLoop (α := Nat) DEFAULT_RETRY_OPTIONS
             (fun _ => .error (.str "socket hang up"))
             (fun _ => none) 0 (fun _ => 1 / 2) 1
             (min DEFAULT_RETRY_OPTIONS.maxDelayMs (5000 * 2))).2) ∧
      w = max 0 (5000 + 5000 * (3 / 10) * ((1 : ℚ) / 2 * 2 - 1)) ∧
      0 ≤ w ∧
      |w - 5000| ≤ (3 / 10) * 5000 :=
  backoff_defaults_and_jitter DEFAULT_RETRY_OPTIONS
    (fun _ => .error (.str "socket hang up")) (fun _ => none) 0
    (fun _ => 1 / 2) 0 5000 (.str "socket hang up")
    rfl
    (by
      have h1 : collectErrorDetails (.str "socket hang up") =
          (["socket hang up"], []) := by
        simp [collectErrorDetails]
      simp only [DEFAULT_RETRY_OPTIONS, defaultShouldRetry,
        isNetworkTransientError, h1]
      decide)
    (by decide)
    (by simp [getDelayDurationAndStatus, getErrorStatus])
    (by norm_num) (by norm_num) (by norm_num)

/-- A registered name makes setActiveProvider succeed, write the name to
settings and keep the registration list. -/
theorem setActiveProvider_ok {s : PMState} {name : String}
    (h : s.registered.contains name = true) :
    ∃ s1, setActiveProvider s name = .ok s1 ∧ s1.activeProvider = name ∧
      s1.registered = s.registered := by
  unfold setActiveProvider
  rw [h]
  simp only [Bool.not_true, Bool.false_eq_true, if_false]
  split_ifs <;> exact ⟨_, rfl, rfl, rfl⟩

/-- C6: the fallback ladder of getActiveProvider.  A set activeProvider
settings key wins with no write-back; otherwise a registered non-empty
config.getProvider() name, else a registered openai, else the first
registered provider resolves, and the resolved name is written back to
settings before the provider is returned. -/
theorem getActiveProvider_ladder :
    (∀ (s : PMState) (configProvider : Option String),
      s.activeProvider ≠ "" →
      s.registered.contains s.activeProvider = true →
      getActiveProvider s configProvider = .ok (s.activeProvider, s)) ∧
    (∀ (s : PMState) (p : String),
      s.activeProvider = "" → p ≠ "" → s.registered.contains p = true →
      ∃ s1, getActiveProvider s (some p) = .ok (p, s1) ∧
        s1.activeProvider = p ∧ s1.registered = s.registered) ∧
    (∀ (s : PMState) (configProvider : Option String),
      s.activeProvider = "" →
      (∀ p, configProvider = some p →
        p = "" ∨ s.registered.contains p = false) →
      s.registered.contains "openai" = true →
      ∃ s1, getActiveProvider s configProvider = .ok ("openai", s1) ∧
        s1.activeProvider = "openai" ∧ s1.registered = s.registered) ∧
    (∀ (s : PMState) (configProvider : Option String) (first : String)
      (rest : List String),
      s.activeProvider = "" →
      (∀ p, configProvider = some p →
        p = "" ∨ s.registered.contains p = false) →
      s.registered.contains "openai" = false →
      s.registered = first :: rest → first ≠ "" →
      ∃ s1, getActiveProvider s configProvider = .ok (first, s1) ∧
        s1.activeProvider = first ∧ s1.registered = s.registered) := by
  refine ⟨?_, ?_, ?_, ?_⟩
  · intro s configProvider hA hcont
    unfold getActiveProvider
    simp only [if_neg hA, hcont, if_true]
  · intro s p hA hp hcont
    obtain ⟨s1, hset, hact, hreg⟩ := setActiveProvider_ok hcont
    refine ⟨s1, ?_, hact, hreg⟩
    unfold getActiveProvider
    rw [hA]
    simp only [if_pos (show ("" : String) = "" from rfl)]
    rw [if_pos (show p ≠ "" ∧ s.registered.contains p = true from ⟨hp, hcont⟩)]
    rw [if_neg hp, hset]
    simp only [if_neg hp, hreg, hcont, if_true]
  · intro s configProvider hA hcfg hopenai
    obtain ⟨s1, hset, hact, hreg⟩ := setActiveProvider_ok hopenai
    refine ⟨s1, ?_, hact, hreg⟩
    have hne : ("openai" : String) ≠ "" := by decide
    unfold getActiveProvider
    rw [hA]
    simp only [if_pos (show ("" : String) = "" from rfl)]
    cases hc : configProvider with
    | none =>
      rw [if_pos hopenai]
      rw [if_neg hne, hset]
      simp only [if_neg hne, hreg, hopenai, if_true]
    | some p =>
      have hcond : ¬ (p ≠ "" ∧ s.registered.contains p = true) := by
        rcases hcfg p hc with hp | hp
        · intro hcon; exact hcon.1 hp
        · intro hcon; rw [hp] at hcon; cases hcon.2
      simp only
      rw [if_neg hcond, if_pos hopenai]
      rw [if_neg hne, hset]
      simp only [if_neg hne, hreg, hopenai, if_true]
  · intro s configProvider first rest hA hcfg hopenai hreg hfirst
    have hcontf : s.registered.contains first = true := by
      rw [hreg]; simp
    obtain ⟨s1, hset, hact, hreg1⟩ := setActiveProvider_ok hcontf
    refine ⟨s1, ?_, hact, hreg1⟩
    have hhead : s.registered.head?.getD "" = first := by rw [hreg]; rfl
    have hnop : ¬ (s.registered.contains "openai" = true) := by
      intro hcon
      rw [hopenai] at hcon
      cases hcon
    unfold getActiveProvider
    rw [hA]
    simp only [if_pos (show ("" : String) = "" from rfl)]
    cases hc : configProvider with
    | none =>
      rw [if_neg hnop, hhead]
      rw [if_neg hfirst, hset]
      simp only [if_neg hfirst, hreg1, hcontf, if_true]
    | some p =>
      have hcond : ¬ (p ≠ "" ∧ s.registered.contains p = true) := by
        rcases hcfg p hc with hp | hp
        · intro hcon; exact hcon.1 hp
        · intro hcon; rw [hp] at hcon; cases hcon.2
      simp only
      rw [if_neg hcond, if_neg hnop, hhead]
      rw [if_neg hfirst, hset]
      simp only [if_neg hfirst, hreg1, hcontf, if_true]

/-- Witness for getActiveProvider_ladder: the four rungs of the ladder
at concrete manager states. -/
theorem getActiveProvider_ladder_witness :
    getActiveProvider ⟨["openai", "gemini"], "gemini", none⟩ none =
      .ok ("gemini", ⟨["openai", "gemini"], "gemini", none⟩) ∧
    (∃ s1, getActiveProvider ⟨["zed"], "", none⟩ (some "zed") =
      .ok ("zed", s1) ∧ s1.activeProvider = "zed" ∧
      s1.registered = ["zed"]) ∧
    (∃ s1, getActiveProvider ⟨["openai", "zed"], "", none⟩ (some "gone") =
      .ok ("openai", s1) ∧ s1.activeProvider = "openai" ∧
      s1.registered = ["openai", "zed"]) ∧
    (∃ s1, getActiveProvider ⟨["anthropic", "zed"], "", none⟩ none =
      .ok ("anthropic", s1) ∧ s1.activeProvider = "anthropic" ∧
      s1.registered = ["anthropic", "zed"]) := by
  refine ⟨?_, ?_, ?_, ?_⟩
  · exact getActiveProvider_ladder.1 ⟨["openai", "gemini"], "gemini", none⟩
      none (by decide) (by decide)
  · exact getActiveProvider_ladder.2.1 ⟨["zed"], "", none⟩ "zed" rfl
      (by decide) (by decide)
  · refine getActiveProvider_ladder.2.2.1 ⟨["openai", "zed"], "", none⟩
      (some "gone") rfl ?_ (by decide)
    intro p hp
    cases hp
    exact Or.inr (by decide)
  · refine getActiveProvider_ladder.2.2.2 ⟨["anthropic", "zed"], "", none⟩
      none "anthropic" ["zed"] rfl ?_ (by decide) rfl (by decide)
    intro p hp
    cases hp

/-- A pattern occurs in any list that embeds it. -/
theorem containsSeq_append (pat t u : List Char) :
    containsSeq pat (t ++ pat ++ u) = true := by
  induction t with
  | nil =>
    simp only [List.nil_append]
    cases pat with
    | nil => cases u <;> simp [containsSeq, startsWithSeq]
    | cons c cs =>
      have htake : List.take (c :: cs).length (c :: (cs ++ u)) = c :: cs := by
        rw [← List.cons_append]
        exact List.take_left (c :: cs) u
      simp [containsSeq, startsWithSeq, htake]
  | cons a t ih =>
    simp only [List.cons_append, containsSeq, Bool.or_eq_true]
    exact Or.inr ih

/-- Any string embedding the name as a segment contains it. -/
theorem strContains_embed (a name b : String) :
    strContains (a ++ name ++ b) name = true := by
  unfold strContains
  rw [String.data_append, String.data_append]
  exact containsSeq_append name.data a.data b.data

/-- C8: loadProfile wraps the three failure shapes in errors naming the
profile: a missing file maps to the not-found error, unparseable content
to the corrupted error, and a parsed value with a falsy required field
to the missing-required-fields error; each message embeds the name. -/
theorem loadProfile_typed_errors :
    (∀ (store : ProfileStore) (name : String),
      store name = none →
      loadProfile store name =
        .error ("Profile '" ++ name ++ "' not found")) ∧
    (∀ (store : ProfileStore) (name : String),
      store name = some .corrupt →
      loadProfile store name =
        .error ("Profile '" ++ name ++ "' is corrupted")) ∧
    (∀ (store : ProfileStore) (name : String) (v : JsValue),
      store name = some (.json v) → v ≠ .null →
      (!truthyOpt (getProp v ("version")) ||
       !truthyOpt (getProp v ("provider")) ||
       !truthyOpt (getProp v ("model")) ||
       !truthyOpt (getProp v ("modelParams")) ||
       !truthyOpt (getProp v ("ephemeralSettings"))) = true →
      loadProfile store name =
        .error ("Profile '" ++ name ++ "' is invalid: missing required fields")) ∧
    (∀ name : String,
      strContains ("Profile '" ++ name ++ "' not found") name = true ∧
      strContains ("Profile '" ++ name ++ "' is corrupted") name = true ∧
      strContains ("Profile '" ++ name ++ "' is invalid: missing required fields")
        name = true) := by
  refine ⟨?_, ?_, ?_, ?_⟩
  · intro store name h
    unfold loadProfile
    rw [h]
  · intro store name h
    unfold loadProfile
    rw [h]
  · intro store name v h hne hmiss
    unfold loadProfile
    rw [h]
    cases v with
    | null => exact absurd rfl hne
    | bool b => exact if_pos hmiss
    | num q => exact if_pos hmiss
    | str s => exact if_pos hmiss
    | arr l => exact if_pos hmiss
    | obj fs => exact if_pos hmiss
  · intro name
    exact ⟨strContains_embed ("Profile '") name ("' not found"),
      strContains_embed ("Profile '") name ("' is corrupted"),
      strContains_embed ("Profile '") name
        ("' is invalid: missing required fields")⟩

/-- Witness for loadProfile_typed_errors: a missing file, a corrupted
file and a profile without a model field, all named demo. -/
theorem loadProfile_typed_errors_witness :
    loadProfile (fun _ => none) "demo" =
      .error "Profile 'demo' not found" ∧
    loadProfile (fun n => if n = "demo" then some .corrupt else none)
      "demo" = .error "Profile 'demo' is corrupted" ∧
    loadProfile (fun n => if n = "demo" then
        some (.json (.obj [("version", .num 1), ("provider", .str "openai")]))
      else none) "demo" =
      .error "Profile 'demo' is invalid: missing required fields" ∧
    strContains "Profile 'demo' not found" "demo" = true := by
  refine ⟨?_, ?_, ?_, ?_⟩
  · exact loadProfile_typed_errors.1 _ "demo" rfl
  · exact loadProfile_typed_errors.2.1 _ "demo" rfl
  · exact loadProfile_typed_errors.2.2.1 _ "demo"
      (.obj [("version", .num 1), ("provider", .str "openai")]) rfl
      (by intro h; cases h) (by decide)
  · exact (loadProfile_typed_errors.2.2.2 "demo").1

/-- The amended C4: a profile whose version field is the number one,
whose provider and model are non-empty strings and whose modelParams and
ephemeralSettings are objects survives the save and load round trip
unchanged. -/
theorem saveProfile_loadProfile_roundtrip (store : ProfileStore)
    (name : String) (p : JsValue) (fs : List (String × JsValue))
    (pv m : String) (mps eps : List (String × JsValue))
    (hp : p = .obj fs)
    (hver : lookupField fs ("version") = some (.num 1))
    (hprov : lookupField fs ("provider") = some (.str pv)) (hpv : pv ≠ "")
    (hmod : lookupField fs ("model") = some (.str m)) (hm : m ≠ "")
    (hmp : lookupField fs ("modelParams") = some (.obj mps))
    (hes : lookupField fs ("ephemeralSettings") = some (.obj eps)) :
    loadProfile (saveProfile store name p) name = .ok p := by
  have hstore : saveProfile store name p name = some (.json p) := by
    unfold saveProfile
    rw [if_pos rfl]
  subst hp
  have hvt : truthyOpt (getProp (.obj fs) ("version")) = true := by
    simp [getProp, hver, truthyOpt, truthy]
  have hpt : truthyOpt (getProp (.obj fs) ("provider")) = true := by
    simp [getProp, hprov, truthyOpt, truthy, hpv]
  have hmt : truthyOpt (getProp (.obj fs) ("model")) = true := by
    simp [getProp, hmod, truthyOpt, truthy, hm]
  have hmpt : truthyOpt (getProp (.obj fs) ("modelParams")) = true := by
    simp [getProp, hmp, truthyOpt, truthy]
  have hest : truthyOpt (getProp (.obj fs) ("ephemeralSettings")) = true := by
    simp [getProp, hes, truthyOpt, truthy]
  have hv1 : versionIsOne (getProp (.obj fs) ("version")) = true := by
    simp [getProp, hver, versionIsOne]
  unfold loadProfile
  split
  · rename_i heq; rw [hstore] at heq; cases heq
  · rename_i heq; rw [hstore] at heq; cases heq
  · rename_i profile heq
    rw [hstore] at heq
    cases heq
    split
    · rename_i heq2; cases heq2
    · rw [if_neg (by simp [hvt, hpt, hmt, hmpt, hest])]
      rw [if_neg (by simp [hv1])]

/-- Witness for the amended round trip at the profile of scenario S6. -/
theorem saveProfile_loadProfile_roundtrip_witness :
    loadProfile
      (saveProfile (fun _ => none) "demo"
        (.obj [("version", .num 1), ("provider", .str "openai"),
          ("model", .str "gpt-x"),
          ("modelParams", .obj [("temperature", .num (2 / 10))]),
          ("ephemeralSettings",
            .obj [("base-url", .str "https://api.example")])]))
      "demo" =
    .ok (.obj [("version", .num 1), ("provider", .str "openai"),
      ("model", .str "gpt-x"),
      ("modelParams", .obj [("temperature", .num (2 / 10))]),
      ("ephemeralSettings",
        .obj [("base-url", .str "https://api.example")])]) :=
  saveProfile_loadProfile_roundtrip (fun _ => none) "demo" _
    [("version", .num 1), ("provider", .str "openai"),
     ("model", .str "gpt-x"),
     ("modelParams", .obj [("temperature", .num (2 / 10))]),
     ("ephemeralSettings", .obj [("base-url", .str "https://api.example")])]
    "openai" "gpt-x" [("temperature", .num (2 / 10))]
    [("base-url", .str "https://api.example")]
    rfl rfl rfl (by decide) rfl (by decide) rfl rfl

/-- Counterexample to C4 as stated: a profile with an empty provider
string is written by saveProfile but loadProfile rejects it instead of
returning it. -/
theorem saveProfile_loadProfile_counterexample :
    loadProfile
      (saveProfile (fun _ => none) "demo"
        (.obj [("version", .num 1), ("provider", .str ""),
          ("model", .str "gpt-x"), ("modelParams", .obj []),
          ("ephemeralSettings", .obj [])]))
      "demo" =
      .error "Profile 'demo' is invalid: missing required fields" ∧
    loadProfile
      (saveProfile (fun _ => none) "demo"
        (.obj [("version", .num 1), ("provider", .str ""),
          ("model", .str "gpt-x"), ("modelParams", .obj []),
          ("ephemeralSettings", .obj [])]))
      "demo" ≠
      .ok (.obj [("version", .num 1), ("provider", .str ""),
        ("model", .str "gpt-x"), ("modelParams", .obj []),
        ("ephemeralSettings", .obj [])]) := by
  constructor
  · rfl
  · intro h
    rw [show loadProfile
        (saveProfile (fun _ => none) "demo"
          (.obj [("version", .num 1), ("provider", .str ""),
            ("model", .str "gpt-x"), ("modelParams", .obj []),
            ("ephemeralSettings", .obj [])]))
        "demo" =
        .error "Profile 'demo' is invalid: missing required fields"
      from rfl] at h
    cases h

/-! ## C2: transient classification over error chains -/

/-- The nested traversal step of collectErrorDetails for one field. -/
def nestedCollect (o : Option JsValue) : List String × List String :=
  match o with
  | some n => if truthy n then collectErrorDetails n else ([], [])
  | none => ([], [])

/-- The message strings a single node contributes. -/
def nodeMessages : JsValue → List String
  | .str s => [s]
  | .obj fs =>
    match lookupField fs ("message") with
    | some (.str m) => [m]
    | _ => []
  | _ => []

/-- The code strings a single node contributes. -/
def nodeCodes : JsValue → List String
  | .obj fs =>
    match lookupField fs ("code") with
    | some (.str c) => [c]
    | _ => []
  | _ => []

/-- Equation of the traversal on an object node. -/
theorem collectErrorDetails_obj (fs : List (String × JsValue)) :
    collectErrorDetails (.obj fs) =
      (nodeMessages (.obj fs) ++
        (nestedCollect (lookupField fs ("cause"))).1 ++
        (nestedCollect (lookupField fs ("originalError"))).1 ++
        (nestedCollect (lookupField fs ("error"))).1,
       nodeCodes (.obj fs) ++
        (nestedCollect (lookupField fs ("cause"))).2 ++
        (nestedCollect (lookupField fs ("originalError"))).2 ++
        (nestedCollect (lookupField fs ("error"))).2) := by
  unfold collectErrorDetails
  simp only [nodeMessages, nodeCodes, nestedCollect]
  rcases hc : lookupField fs ("cause") with _ | n1 <;>
    rcases ho : lookupField fs ("originalError") with _ | n2 <;>
    rcases he : lookupField fs ("error") with _ | n3 <;>
    simp only [hc, ho, he]

/-- The nodes of an error chain: the error itself and everything reached
by following truthy cause, originalError and error fields of objects. -/
inductive Reaches : JsValue → JsValue → Prop where
  | refl (v : JsValue) : Reaches v v
  | step {root : JsValue} {fs : List (String × JsValue)} {n : JsValue}
      (key : String) (hroot : Reaches root (.obj fs))
      (hkey : key = "cause" ∨ key = "originalError" ∨ key = "error")
      (hfield : lookupField fs key = some n)
      (htruthy : truthy n = true) : Reaches root n

theorem mem_nodeMessages_collect (n : JsValue) :
    ∀ x ∈ nodeMessages n, x ∈ (collectErrorDetails n).1 := by
  cases n with
  | str s =>
    intro x hx
    simp [nodeMessages] at hx
    simp [collectErrorDetails, hx]
  | obj fs =>
    intro x hx
    rw [collectErrorDetails_obj]
    simp [hx]
  | null => intro x hx; simp [nodeMessages] at hx
  | bool b => intro x hx; simp [nodeMessages] at hx
  | num q => intro x hx; simp [nodeMessages] at hx
  | arr l => intro x hx; simp [nodeMessages] at hx

theorem mem_nodeCodes_collect (n : JsValue) :
    ∀ x ∈ nodeCodes n, x ∈ (collectErrorDetails n).2 := by
  cases n with
  | obj fs =>
    intro x hx
    rw [collectErrorDetails_obj]
    simp [hx]
  | str s => intro x hx; simp [nodeCodes] at hx
  | null => intro x hx; simp [nodeCodes] at hx
  | bool b => intro x hx; simp [nodeCodes] at hx
  | num q => intro x hx; simp [nodeCodes] at hx
  | arr l => intro x hx; simp [nodeCodes] at hx

/-- Everything a reached node collects is collected at the root. -/
theorem reaches_subset {root n : JsValue} (h : Reaches root n) :
    (∀ x ∈ (collectErrorDetails n).1, x ∈ (collectErrorDetails root).1) ∧
    (∀ x ∈ (collectErrorDetails n).2, x ∈ (collectErrorDetails root).2) := by
  induction h with
  | refl => exact ⟨fun x hx => hx, fun x hx => hx⟩
  | step key hroot hkey hfield htruthy ih =>
    rename_i fs m
    have hnc : nestedCollect (lookupField fs key) = collectErrorDetails m := by
      rw [hfield]
      simp [nestedCollect, htruthy]
    have hsub1 : ∀ x ∈ (collectErrorDetails m).1,
        x ∈ (collectErrorDetails (.obj fs)).1 := by
      intro x hx
      rw [collectErrorDetails_obj]
      rcases hkey with hk | hk | hk <;> subst hk <;>
        simp only [hnc] <;> simp [hx]
    have hsub2 : ∀ x ∈ (collectErrorDetails m).2,
        x ∈ (collectErrorDetails (.obj fs)).2 := by
      intro x hx
      rw [collectErrorDetails_obj]
      rcases hkey with hk | hk | hk <;> subst hk <;>
        simp only [hnc] <;> simp [hx]
    exact ⟨fun x hx => ih.1 x (hsub1 x hx), fun x hx => ih.2 x (hsub2 x hx)⟩

/-- Transient message test: a phrase occurs in the lowercased text or one
of the transient regexes matches. -/
def messageIsTransient (msg : String) : Bool :=
  TRANSIENT_ERROR_PHRASES.any (fun phrase =>
    strContains (jsToLower msg) phrase) ||
  transientRegexMatch msg

/-- A single chain node carrying transient evidence: a transient message
or a code whose uppercase form is in the transient code set. -/
def transientNode (n : JsValue) : Bool :=
  (nodeMessages n).any messageIsTransient ||
  (nodeCodes n).any (fun code => TRANSIENT_ERROR_CODES.contains (jsToUpper code))

/-- Any chain with one transient node classifies as transient. -/
theorem transient_of_reaches (e n : JsValue) (hre : Reaches e n)
    (htr : transientNode n = true) : isNetworkTransientError e = true := by
  unfold isNetworkTransientError
  simp only [Bool.or_eq_true, List.any_eq_true]
  unfold transientNode at htr
  simp only [Bool.or_eq_true, List.any_eq_true] at htr
  rcases htr with ⟨msg, hmem, hmsg⟩ | ⟨code, hmem, hcode⟩
  · have hmem2 : msg ∈ (collectErrorDetails e).1 :=
      (reaches_subset hre).1 msg (mem_nodeMessages_collect n msg hmem)
    unfold messageIsTransient at hmsg
    simp only [Bool.or_eq_true, List.any_eq_true] at hmsg
    rcases hmsg with h | h
    · refine Or.inl (Or.inl ⟨msg, hmem2, ?_⟩)
      simpa only [List.any_eq_true] using h
    · exact Or.inl (Or.inr ⟨msg, hmem2, h⟩)
  · have hmem2 : code ∈ (collectErrorDetails e).2 :=
      (reaches_subset hre).2 code (mem_nodeCodes_collect n code hmem)
    exact Or.inr ⟨code, hmem2, hcode⟩

/-- C2: every error chain containing a node with a transient code, a
transient phrase in its message or a transient regex match classifies as
transient, and every stream-interruption error created with the
dedicated code classifies as transient. -/
theorem isNetworkTransientError_chain :
    (∀ (e n : JsValue), Reaches e n → transientNode n = true →
      isNetworkTransientError e = true) ∧
    (∀ (message : String) (details cause : Option JsValue),
      isNetworkTransientError
        (createStreamInterruptionError message details cause) = true) := by
  constructor
  · exact fun e n hre htr => transient_of_reaches e n hre htr
  · intro message details cause
    refine transient_of_reaches _ _ (Reaches.refl _) ?_
    have hcode : nodeCodes (createStreamInterruptionError message details cause)
        = [STREAM_INTERRUPTED_ERROR_CODE] := by
      unfold createStreamInterruptionError nodeCodes
      rcases details with _ | d <;> rcases cause with _ | c <;>
        simp only [] <;> first | (split_ifs <;> rfl) | rfl
    unfold transientNode
    rw [hcode]
    have hc : ([STREAM_INTERRUPTED_ERROR_CODE].any (fun code =>
        TRANSIENT_ERROR_CODES.contains (jsToUpper code))) = true := by decide
    rw [hc]
    simp

/-- Witness for isNetworkTransientError_chain: a wrapped cause carrying
the code econnreset, and a concrete stream-interruption error. -/
theorem isNetworkTransientError_chain_witness :
    isNetworkTransientError
      (.obj [("message", .str "request blew up"),
        ("cause", .obj [("code", .str "econnreset")])]) = true ∧
    isNetworkTransientError
      (createStreamInterruptionError "stream cut" none none) = true := by
  constructor
  · refine isNetworkTransientError_chain.1
      (.obj [("message", .str "request blew up"),
        ("cause", .obj [("code", .str "econnreset")])])
      (.obj [("code", .str "econnreset")])
      (Reaches.step "cause" (Reaches.refl _) (Or.inl rfl) rfl rfl) ?_
    decide
  · exact isNetworkTransientError_chain.2 "stream cut" none none

/-! ## C5: the scanning rules of processTemplate -/

/-- If the two-character pattern does not occur up to the opener, the
scan splits exactly at the opener. -/
theorem splitFirst_at_first (a b : Char) (post : List Char) :
    ∀ pre, containsSeq [a, b] (pre ++ [a]) = false →
      splitFirst [a, b] (pre ++ ([a, b] ++ post)) = some (pre, post) := by
  intro pre
  induction pre with
  | nil =>
    intro h
    unfold splitFirst
    rw [if_pos]
    · simp
    · simp [startsWithSeq]
  | cons c pre ih =>
    intro h
    simp only [List.cons_append, containsSeq, Bool.or_eq_false_iff] at h
    obtain ⟨hsw, hrest⟩ := h
    have hsw2 : startsWithSeq [a, b] (c :: (pre ++ ([a, b] ++ post))) =
        startsWithSeq [a, b] (c :: (pre ++ [a])) := by
      cases pre <;> simp [startsWithSeq]
    have hsw3 : startsWithSeq [a, b] (c :: (pre ++ [a])) = false := by
      simpa [List.append_eq] using hsw
    unfold splitFirst
    rw [if_neg (by rw [List.cons_append, hsw2, hsw3]; exact Bool.false_ne_true)]
    rw [List.cons_append]
    simp only [ih hrest, Option.map_some']

/-- If the pattern does not occur at all, the scan finds nothing. -/
theorem splitFirst_none_of_not_contains (pat : List Char) :
    ∀ s, containsSeq pat s = false → splitFirst pat s = none := by
  intro s
  induction s with
  | nil =>
    intro h
    simp only [containsSeq] at h
    unfold splitFirst
    rw [if_neg (by rw [h]; exact Bool.false_ne_true)]
  | cons c rest ih =>
    intro h
    simp only [containsSeq, Bool.or_eq_false_iff] at h
    obtain ⟨hsw, hrest⟩ := h
    unfold splitFirst
    rw [if_neg (by rw [hsw]; exact Bool.false_ne_true)]
    simp only [ih hrest, Option.map_none']

/-- C5: the substitution rules of processTemplate.  At the first opener
of the text: a well-formed variable whose trimmed name is in the map is
replaced by its value; a name not in the map is replaced by the empty
string; an opener without a later closer is emitted as is together with
everything after it; a name containing nested braces keeps the opener
literal and scanning resumes right after the opener. -/
theorem processTemplate_substitution_rules :
    (∀ (vars : List (String × Option String)) (d : Bool)
      (pre inner rest : List Char) (value : String),
      containsSeq openBraces (pre ++ ['{']) = false →
      containsSeq closeBraces (inner ++ ['}']) = false →
      trimChars inner ≠ [] →
      containsSeq openBraces (trimChars inner) = false →
      containsSeq closeBraces (trimChars inner) = false →
      lookupVar vars (String.mk (trimChars inner)) = some (some value) →
      (processTemplateCs vars d
        (pre ++ openBraces ++ inner ++ closeBraces ++ rest)).1 =
        pre ++ value.data ++ (processTemplateCs vars d rest).1) ∧
    (∀ (vars : List (String × Option String)) (d : Bool)
      (pre inner rest : List Char),
      containsSeq openBraces (pre ++ ['{']) = false →
      containsSeq closeBraces (inner ++ ['}']) = false →
      trimChars inner ≠ [] →
      containsSeq openBraces (trimChars inner) = false →
      containsSeq closeBraces (trimChars inner) = false →
      lookupVar vars (String.mk (trimChars inner)) = none →
      (processTemplateCs vars d
        (pre ++ openBraces ++ inner ++ closeBraces ++ rest)).1 =
        pre ++ (processTemplateCs vars d rest).1) ∧
    (∀ (vars : List (String × Option String)) (d : Bool)
      (pre post : List Char),
      containsSeq openBraces (pre ++ ['{']) = false →
      containsSeq closeBraces post = false →
      (processTemplateCs vars d (pre ++ openBraces ++ post)).1 =
        pre ++ openBraces ++ post) ∧
    (∀ (vars : List (String × Option String)) (d : Bool)
      (pre inner rest : List Char),
      containsSeq openBraces (pre ++ ['{']) = false →
      containsSeq closeBraces (inner ++ ['}']) = false →
      trimChars inner ≠ [] →
      (containsSeq openBraces (trimChars inner) ||
        containsSeq closeBraces (trimChars inner)) = true →
      (processTemplateCs vars d
        (pre ++ openBraces ++ inner ++ closeBraces ++ rest)).1 =
        pre ++ openBraces ++
          (processTemplateCs vars d (inner ++ closeBraces ++ rest)).1) := by
  have hsplit1 : ∀ (pre inner rest : List Char),
      containsSeq openBraces (pre ++ ['{']) = false →
      splitFirst openBraces
        (pre ++ openBraces ++ inner ++ closeBraces ++ rest) =
        some (pre, inner ++ closeBraces ++ rest) := by
    intro pre inner rest hpre
    have := splitFirst_at_first '{' '{' (inner ++ closeBraces ++ rest) pre hpre
    simpa [openBraces, List.append_assoc] using this
  have hsplit2 : ∀ (inner rest : List Char),
      containsSeq closeBraces (inner ++ ['}']) = false →
      splitFirst closeBraces (inner ++ closeBraces ++ rest) =
        some (inner, rest) := by
    intro inner rest hinner
    have := splitFirst_at_first '}' '}' rest inner hinner
    simpa [closeBraces, List.append_assoc] using this
  refine ⟨?_, ?_, ?_, ?_⟩
  · intro vars d pre inner rest value hpre hinner hname hbo hbc hv
    rw [show pre ++ openBraces ++ inner ++ closeBraces ++ rest =
      pre ++ openBraces ++ (inner ++ closeBraces ++ rest) by
        simp [List.append_assoc]]
    rw [processTemplateCs_subst vars d _ pre (inner ++ closeBraces ++ rest)
      inner rest value
      (by simpa [List.append_assoc] using hsplit1 pre inner rest hpre)
      (hsplit2 inner rest hinner) hname (by simp [hbo, hbc]) hv]
  · intro vars d pre inner rest hpre hinner hname hbo hbc hv
    rw [show pre ++ openBraces ++ inner ++ closeBraces ++ rest =
      pre ++ openBraces ++ (inner ++ closeBraces ++ rest) by
        simp [List.append_assoc]]
    rw [processTemplateCs_missing vars d _ pre (inner ++ closeBraces ++ rest)
      inner rest
      (by simpa [List.append_assoc] using hsplit1 pre inner rest hpre)
      (hsplit2 inner rest hinner) hname (by simp [hbo, hbc]) hv]
  · intro vars d pre post hpre hpost
    have h1 : splitFirst openBraces (pre ++ openBraces ++ post) =
        some (pre, post) := by
      have := splitFirst_at_first '{' '{' post pre hpre
      simpa [openBraces, List.append_assoc] using this
    rw [processTemplateCs_noclose vars d _ pre post h1
      (splitFirst_none_of_not_contains closeBraces post hpost)]
  · intro vars d pre inner rest hpre hinner hname hbr
    rw [show pre ++ openBraces ++ inner ++ closeBraces ++ rest =
      pre ++ openBraces ++ (inner ++ closeBraces ++ rest) by
        simp [List.append_assoc]]
    rw [processTemplateCs_nested vars d _ pre (inner ++ closeBraces ++ rest)
      inner rest
      (by simpa [List.append_assoc] using hsplit1 pre inner rest hpre)
      (hsplit2 inner rest hinner) hname hbr]

/-- Witness for processTemplate_substitution_rules: the four rules at
concrete templates. -/
theorem processTemplate_substitution_rules_witness :
    (processTemplateCs [("NAME", some "world")] false
      ("hi ".data ++ openBraces ++ " NAME ".data ++ closeBraces ++
        "!".data)).1 =
      "hi ".data ++ "world".data ++
        (processTemplateCs [("NAME", some "world")] false "!".data).1 ∧
    (processTemplateCs [("NAME", some "world")] false
      ("hi ".data ++ openBraces ++ "OTHER".data ++ closeBraces ++
        "!".data)).1 =
      "hi ".data ++
        (processTemplateCs [("NAME", some "world")] false "!".data).1 ∧
    (processTemplateCs [("NAME", some "world")] false
      ("a".data ++ openBraces ++ "b".data)).1 =
      "a".data ++ openBraces ++ "b".data ∧
    (processTemplateCs [("NAME", some "world")] false
      ("a".data ++ openBraces ++ "x\x7b\x7by".data ++ closeBraces ++
        "!".data)).1 =
      "a".data ++ openBraces ++
        (processTemplateCs [("NAME", some "world")] false
          ("x\x7b\x7by".data ++ closeBraces ++ "!".data)).1 := by
  refine ⟨?_, ?_, ?_, ?_⟩
  · exact processTemplate_substitution_rules.1 [("NAME", some "world")] false
      "hi ".data " NAME ".data "!".data "world" (by decide) (by decide)
      (by decide) (by decide) (by decide) (by decide)
  · exact processTemplate_substitution_rules.2.1 [("NAME", some "world")]
      false "hi ".data "OTHER".data "!".data (by decide) (by decide)
      (by decide) (by decide) (by decide) (by decide)
  · exact processTemplate_substitution_rules.2.2.1 [("NAME", some "world")]
      false "a".data "b".data (by decide) (by decide)
  · exact processTemplate_substitution_rules.2.2.2 [("NAME", some "world")]
      false "a".data "x\x7b\x7by".data "!".data (by decide) (by decide)
      (by decide) (by decide)

end Llxprt
